import Mathlib

/-!
Verification of the benchmark-suite repository (cpu_benchmark.py,
memory_benchmark.py, storage_benchmark.py, network_benchmark.py,
gpu_benchmark.py, tenserflow_benchmark.py) against its natural-language
specification.

The Python scripts are shallowly embedded: machine floats used as second
timestamps are modelled as rationals, Python exceptions as `Except PyErr`,
the log file as an `Option String` (`none` = file absent), and each
benchmark's `(duration-or-None, params)` pair as `Option ℚ × String`.
-/

/-- Kinds of Python exceptions that the embedded code can raise. -/
inductive PyErr : Type
  | typeError
  | nameError
  | indexError
  | valueError
  | memoryError
deriving DecidableEq, Repr

/-- The value a benchmark body returns in every suite of this repository:
a pair of an optional duration (`None` on an internally-handled failure)
and a params/detail string, mirroring Python's `(result, params)` tuples. -/
abbrev UnitRes : Type := Option ℚ × String

/-- Python's `range(a, b, s)` (for step `s > 0`) as a Lean list:
`⌈(b - a) / s⌉` elements starting at `a` with stride `s`.  `range(a, b)`
is `pyrange a b 1`. -/
def pyrange (a b s : Nat) : List Nat :=
  List.range' a ((b - a + s - 1) / s) s

theorem mem_pyrange {s : Nat} (hs : 0 < s) (a b m : Nat) :
    m ∈ pyrange a b s ↔ a ≤ m ∧ m < b ∧ s ∣ (m - a) := by
  unfold pyrange
  rw [List.mem_range']
  constructor
  · rintro ⟨i, hi, rfl⟩
    have hle : i + 1 ≤ (b - a + s - 1) / s := hi
    rw [Nat.le_div_iff_mul_le hs] at hle
    have h1 : (i + 1) * s = s * i + s := by ring
    rw [h1] at hle
    refine ⟨Nat.le_add_right _ _, ?_, ⟨i, by omega⟩⟩
    generalize s * i = k at *
    omega
  · rintro ⟨ham, hmb, i, hi⟩
    refine ⟨i, ?_, ?_⟩
    · rw [Nat.lt_iff_add_one_le, Nat.le_div_iff_mul_le hs]
      have h1 : (i + 1) * s = s * i + s := by ring
      rw [h1]
      generalize s * i = k at *
      omega
    · generalize hk : s * i = k at *
      omega

/-!
## Runner model (cpu `run_benchmarks`, memory `run_memory_benchmarks`,
storage `run_storage_benchmarks`)

Each runner builds `results = { name: bench(), ... }`: a Python dict
literal whose value expressions are evaluated left to right.  A unit body
is therefore modelled as an `Except PyErr UnitRes` (its normal return
value, or the exception it raises).  If a value expression raises, the
dict is never built and the exception propagates out of the runner —
there is no try/except around unit invocation in any of the three files.
-/

/-- Evaluation of the runner's dict literal: values are evaluated in
registration order; the first exception aborts the whole construction. -/
def runSuite : List (String × Except PyErr UnitRes) → Except PyErr (List (String × UnitRes))
  | [] => Except.ok []
  | (nm, r) :: rest =>
    match r with
    | Except.error e => Except.error e
    | Except.ok v =>
      match runSuite rest with
      | Except.error e => Except.error e
      | Except.ok tail => Except.ok ((nm, v) :: tail)

/-!
## Registry model (the `results`/suite dicts)

The only registration operation in the repository is insertion into a
Python dict.  A Python dict keeps keys in insertion order; inserting an
existing key keeps its position and replaces its value.
-/

/-- Python dict insertion: replace in place if the key is present,
append otherwise. -/
def dictInsert {V : Type} : List (String × V) → String → V → List (String × V)
  | [], k, v => [(k, v)]
  | (k', v') :: rest, k, v =>
    if k' = k then (k', v) :: rest else (k', v') :: dictInsert rest k v

/-- Python dict lookup (first — and only — binding of the key). -/
def dictFind {V : Type} : List (String × V) → String → Option V
  | [], _ => none
  | (k', v') :: rest, k => if k' = k then some v' else dictFind rest k

/-!
## Timing model (`benchmark_prime_numbers` and the other workload bodies)

Every workload body reads `time.time()` (the wall clock — not
`time.monotonic`) twice and returns `end_time - start_time` with no
clamping.  The two reads are passed in as rationals `t0`, `t1`; a
backwards wall-clock adjustment during the run is exactly the case
`t1 < t0`.
-/

/-- Trial-division primality test used by `benchmark_prime_numbers`:
`all(num % i != 0 for i in range(2, int(num**0.5) + 1))`, with
`int(num**0.5)` modelled as `Nat.sqrt num`. -/
def bruteForceIsPrime (num : Nat) : Bool :=
  (pyrange 2 (Nat.sqrt num + 1) 1).all (fun i => num % i != 0)

/-- The `primes` list built by the loop of `benchmark_prime_numbers`:
`for num in range(2, n): if is_prime: primes.append(num)`. -/
def primesBruteForce (n : Nat) : List Nat :=
  (pyrange 2 n 1).filter bruteForceIsPrime

/-- `benchmark_prime_numbers(n)` from cpu_benchmark.py: computes the
brute-force prime list between two wall-clock reads and returns
`(end_time - start_time, f"n={n}")`. -/
def benchmark_prime_numbers (t0 t1 : ℚ) (n : Nat) : ℚ × String :=
  let _primes := primesBruteForce n
  (t1 - t0, "n=" ++ toString n)

/-!
## Sieve model (`benchmark_sieve_of_eratosthenes`)

The Python list `primes = [True] * (n + 1)` is modelled as a total
function `Nat → Bool` (every index the source reads or writes is within
bounds: the outer loop runs while `p * p <= n`, the inner loop writes
indices `p*p, p*p+p, …, ≤ n`, and the final comprehension reads indices
`2 … n-1`).  The inner `for i in range(p*p, n+1, p)` is a fold over
`pyrange`; the outer `while (p * p <= n)` is structural recursion on a
fuel argument, called with fuel `n + 1`, which exceeds the number of
iterations (p starts at 2 and stays `≤ n + 1`).
-/

/-- Python list assignment `a[i] = v` on the function model. -/
def listSet (a : Nat → Bool) (i : Nat) (v : Bool) : Nat → Bool :=
  fun m => if m = i then v else a m

/-- `for i in range(p*p, n+1, p): primes[i] = False`. -/
def markMultiples (a : Nat → Bool) (p n : Nat) : Nat → Bool :=
  (pyrange (p * p) (n + 1) p).foldl (fun acc i => listSet acc i false) a

/-- `while (p * p <= n): (if primes[p]: mark multiples); p += 1`. -/
def sieveLoop : Nat → (Nat → Bool) → Nat → Nat → (Nat → Bool)
  | 0, a, _, _ => a
  | fuel + 1, a, p, n =>
    if p * p ≤ n then
      sieveLoop fuel (if a p then markMultiples a p n else a) (p + 1) n
    else a

/-- The `prime_numbers` list of `benchmark_sieve_of_eratosthenes`:
run the sieve on `[True] * (n + 1)` starting at `p = 2`, then
`[p for p in range(2, n) if primes[p]]`. -/
def primesSieve (n : Nat) : List Nat :=
  let primes := sieveLoop (n + 1) (fun _ => true) 2 n
  (pyrange 2 n 1).filter (fun p => primes p)

theorem foldl_listSet_false (l : List Nat) (a : Nat → Bool) (m : Nat) :
    (l.foldl (fun acc i => listSet acc i false) a) m
      = if m ∈ l then false else a m := by
  induction l generalizing a with
  | nil => simp
  | cons i t ih =>
    rw [List.foldl_cons, ih]
    by_cases hmi : m = i <;> by_cases hmt : m ∈ t <;>
      simp [listSet, hmi, hmt, List.mem_cons]

theorem markMultiples_eq {p : Nat} (hp : 0 < p) (a : Nat → Bool) (n m : Nat) :
    markMultiples a p n m
      = if p * p ≤ m ∧ m ≤ n ∧ p ∣ m then false else a m := by
  unfold markMultiples
  rw [foldl_listSet_false]
  have hpp : p ∣ p * p := Dvd.intro p rfl
  have hmem : m ∈ pyrange (p * p) (n + 1) p ↔ p * p ≤ m ∧ m ≤ n ∧ p ∣ m := by
    rw [mem_pyrange hp]
    constructor
    · rintro ⟨h1, h2, h3⟩
      refine ⟨h1, by omega, ?_⟩
      have hm : m = (m - p * p) + p * p := by omega
      rw [hm]
      exact Nat.dvd_add h3 hpp
    · rintro ⟨h1, h2, h3⟩
      exact ⟨h1, by omega, Nat.dvd_sub' h3 hpp⟩
  by_cases hcase : m ∈ pyrange (p * p) (n + 1) p
  · rw [if_pos hcase, if_pos (hmem.mp hcase)]
  · rw [if_neg hcase, if_neg (fun h => hcase (hmem.mpr h))]

theorem sieveLoop_spec :
    ∀ (fuel p : Nat) (a : Nat → Bool) (n m : Nat), 2 ≤ p → n + 1 ≤ fuel + p →
    (∀ m', m' ≤ n →
      (a m' = false ↔ ∃ q, Nat.Prime q ∧ q < p ∧ q ∣ m' ∧ q * q ≤ m')) →
    m ≤ n →
    (sieveLoop fuel a p n m = false ↔
      ∃ q, Nat.Prime q ∧ (q < p ∨ q * q ≤ n) ∧ q ∣ m ∧ q * q ≤ m) := by
  intro fuel
  induction fuel with
  | zero =>
    intro p a n m h2 hfuel hinv hm
    simp only [sieveLoop]
    rw [hinv m hm]
    constructor
    · rintro ⟨q, hq, hqp, hqd, hq2⟩
      exact ⟨q, hq, Or.inl hqp, hqd, hq2⟩
    · rintro ⟨q, hq, hqor, hqd, hq2⟩
      refine ⟨q, hq, ?_, hqd, hq2⟩
      rcases hqor with hqp | hqn
      · exact hqp
      · have hqq : q ≤ q * q := Nat.le_mul_of_pos_left q (by have := hq.two_le; omega)
        have : q ≤ n := le_trans hqq hqn
        omega
  | succ fuel ih =>
    intro p a n m h2 hfuel hinv hm
    simp only [sieveLoop]
    by_cases hpn : p * p ≤ n
    · rw [if_pos hpn]
      have hple : p ≤ n := le_trans (Nat.le_mul_of_pos_left p (by omega)) hpn
      have hap_iff : a p = true ↔ p.Prime := by
        constructor
        · intro hap
          by_contra hnp
          have hq : (p.minFac).Prime := Nat.minFac_prime (by omega)
          have hq2 : p.minFac * p.minFac ≤ p := by
            have := Nat.minFac_sq_le_self (by omega : 0 < p) hnp
            rwa [pow_two] at this
          have hqlt : p.minFac < p := by
            have h1 : p.minFac < p.minFac * p.minFac :=
              (Nat.lt_mul_iff_one_lt_left (by have := hq.two_le; omega)).mpr
                (by have := hq.two_le; omega)
            omega
          have : a p = false :=
            (hinv p hple).mpr ⟨p.minFac, hq, hqlt, Nat.minFac_dvd p, hq2⟩
          rw [hap] at this
          exact Bool.noConfusion this
        · intro hp
          by_contra hap
          have hapf : a p = false := by cases hb : a p <;> simp_all
          obtain ⟨q, hq, hqlt, hqd, _⟩ := (hinv p hple).mp hapf
          have := (Nat.prime_dvd_prime_iff_eq hq hp).mp hqd
          omega
      have hinv' : ∀ m', m' ≤ n →
          ((if a p then markMultiples a p n else a) m' = false ↔
            ∃ q, Nat.Prime q ∧ q < p + 1 ∧ q ∣ m' ∧ q * q ≤ m') := by
        intro m' hm'
        by_cases hap : a p = true
        · rw [if_pos hap, markMultiples_eq (by omega)]
          have hpprime := hap_iff.mp hap
          constructor
          · intro h
            by_cases hc : p * p ≤ m' ∧ m' ≤ n ∧ p ∣ m'
            · exact ⟨p, hpprime, by omega, hc.2.2, hc.1⟩
            · rw [if_neg hc] at h
              obtain ⟨q, hq, h1, h2, h3⟩ := (hinv m' hm').mp h
              exact ⟨q, hq, by omega, h2, h3⟩
          · rintro ⟨q, hq, hqlt, hqd, hq2⟩
            by_cases hqp : q = p
            · subst hqp
              rw [if_pos ⟨hq2, hm', hqd⟩]
            · have hqlt' : q < p := by omega
              have hfalse : a m' = false := (hinv m' hm').mpr ⟨q, hq, hqlt', hqd, hq2⟩
              by_cases hc : p * p ≤ m' ∧ m' ≤ n ∧ p ∣ m'
              · rw [if_pos hc]
              · rw [if_neg hc]
                exact hfalse
        · rw [if_neg hap]
          have hnp : ¬ p.Prime := fun hp => hap (hap_iff.mpr hp)
          constructor
          · intro h
            obtain ⟨q, hq, h1, h2, h3⟩ := (hinv m' hm').mp h
            exact ⟨q, hq, by omega, h2, h3⟩
          · rintro ⟨q, hq, hqlt, hqd, hq2⟩
            have hqp : q ≠ p := fun he => hnp (he ▸ hq)
            exact (hinv m' hm').mpr ⟨q, hq, by omega, hqd, hq2⟩
      rw [ih (p + 1) _ n m (by omega) (by omega) hinv' hm]
      constructor
      · rintro ⟨q, hq, hqor, hqd, hq2⟩
        refine ⟨q, hq, ?_, hqd, hq2⟩
        rcases hqor with hqp | hqn
        · by_cases hqp' : q = p
          · subst hqp'
            exact Or.inr hpn
          · exact Or.inl (by omega)
        · exact Or.inr hqn
      · rintro ⟨q, hq, hqor, hqd, hq2⟩
        refine ⟨q, hq, ?_, hqd, hq2⟩
        rcases hqor with hqp | hqn
        · exact Or.inl (by omega)
        · exact Or.inr hqn
    · rw [if_neg hpn]
      rw [hinv m hm]
      constructor
      · rintro ⟨q, hq, hqp, hqd, hq2⟩
        exact ⟨q, hq, Or.inl hqp, hqd, hq2⟩
      · rintro ⟨q, hq, hqor, hqd, hq2⟩
        refine ⟨q, hq, ?_, hqd, hq2⟩
        rcases hqor with hqp | hqn
        · exact hqp
        · by_contra hge
          have hpq : p ≤ q := by omega
          have h1 : p * p ≤ q * q := Nat.mul_le_mul hpq hpq
          exact hpn (le_trans h1 hqn)

theorem sieveArray_false_iff (n m : Nat) (hm : m ≤ n) :
    sieveLoop (n + 1) (fun _ => true) 2 n m = false ↔
      ∃ q, Nat.Prime q ∧ q ∣ m ∧ q * q ≤ m := by
  have hinv : ∀ m', m' ≤ n →
      (((fun _ => true) : Nat → Bool) m' = false ↔
        ∃ q, Nat.Prime q ∧ q < 2 ∧ q ∣ m' ∧ q * q ≤ m') := by
    intro m' _
    constructor
    · intro h
      exact Bool.noConfusion h
    · rintro ⟨q, hq, hq2, _, _⟩
      have := hq.two_le
      omega
  rw [sieveLoop_spec (n + 1) 2 _ n m (by omega) (by omega) hinv hm]
  constructor
  · rintro ⟨q, hq, _, hqd, hq2⟩
    exact ⟨q, hq, hqd, hq2⟩
  · rintro ⟨q, hq, hqd, hq2⟩
    exact ⟨q, hq, Or.inr (le_trans hq2 hm), hqd, hq2⟩

theorem small_factor_iff_not_prime (m : Nat) (hm : 2 ≤ m) :
    (∃ q, Nat.Prime q ∧ q ∣ m ∧ q * q ≤ m) ↔ ¬ m.Prime := by
  constructor
  · rintro ⟨q, hq, hqd, hq2⟩ hmp
    have hqm : q = m := (Nat.prime_dvd_prime_iff_eq hq hmp).mp hqd
    subst hqm
    have h1 : q < q * q :=
      (Nat.lt_mul_iff_one_lt_left (by have := hq.two_le; omega)).mpr
        (by have := hq.two_le; omega)
    omega
  · intro hnp
    refine ⟨m.minFac, Nat.minFac_prime (by omega), Nat.minFac_dvd m, ?_⟩
    have := Nat.minFac_sq_le_self (by omega : 0 < m) hnp
    rwa [pow_two] at this

theorem bruteForceIsPrime_iff (num : Nat) (h2 : 2 ≤ num) :
    bruteForceIsPrime num = true ↔ num.Prime := by
  unfold bruteForceIsPrime
  rw [List.all_eq_true]
  constructor
  · intro h
    rw [Nat.prime_def_le_sqrt]
    refine ⟨h2, fun i hi1 hi2 hdvd => ?_⟩
    have hmem : i ∈ pyrange 2 (Nat.sqrt num + 1) 1 :=
      (mem_pyrange (by omega) 2 (Nat.sqrt num + 1) i).mpr ⟨hi1, by omega, one_dvd _⟩
    have := h i hmem
    rw [bne_iff_ne] at this
    exact this ((Nat.dvd_iff_mod_eq_zero).mp hdvd)
  · intro hp i hi
    rw [bne_iff_ne]
    obtain ⟨hi1, hi2, -⟩ := (mem_pyrange (by omega) 2 (Nat.sqrt num + 1) i).mp hi
    intro hmod
    have hdvd : i ∣ num := (Nat.dvd_iff_mod_eq_zero).mpr hmod
    exact (Nat.prime_def_le_sqrt.mp hp).2 i hi1 (by omega) hdvd

theorem primesSieve_eq_filter_prime (n : Nat) :
    primesSieve n = (pyrange 2 n 1).filter (fun m => decide m.Prime) := by
  unfold primesSieve
  refine List.filter_congr ?_
  intro x hx
  obtain ⟨hx2, hxn, -⟩ := (mem_pyrange (by omega) 2 n x).mp hx
  have hxle : x ≤ n := by omega
  have hfalse := sieveArray_false_iff n x hxle
  rw [small_factor_iff_not_prime x hx2] at hfalse
  cases hb : sieveLoop (n + 1) (fun _ => true) 2 n x
  · have := hfalse.mp hb
    simp [this]
  · have : x.Prime := by
      by_contra hnp
      rw [← hfalse] at hnp
      rw [hb] at hnp
      exact Bool.noConfusion hnp
    simp [this]

theorem primesBruteForce_eq_filter_prime (n : Nat) :
    primesBruteForce n = (pyrange 2 n 1).filter (fun m => decide m.Prime) := by
  unfold primesBruteForce
  refine List.filter_congr ?_
  intro x hx
  obtain ⟨hx2, -, -⟩ := (mem_pyrange (by omega) 2 n x).mp hx
  have h := bruteForceIsPrime_iff x hx2
  cases hb : bruteForceIsPrime x
  · have : ¬ x.Prime := fun hp => by
      rw [← h] at hp
      rw [hb] at hp
      exact Bool.noConfusion hp
    simp [this]
  · have : x.Prime := h.mp hb
    simp [this]

/-!
## Report formatting and the log sink

Python's `f"{x:.2f}"` on a float is modelled on exact rationals: the
value is rounded to the nearest multiple of 1/100 (ties to even, like
IEEE float formatting) and printed with exactly two digits after the
decimal point.  The log file is an `Option String` (`none` when the file
does not exist); `open(LOG_FILE, "a")` yields the existing contents (or
`""`, creating the file), each `log.write` appends to them, and the
`with` block produces the final contents.
-/

/-- Nearest multiple of 1/100 below-or-equal/above, ties to even:
the integer `round(100 * q)` used by the 2-decimal float format. -/
def round2 (q : ℚ) : Int :=
  let f := Int.floor (100 * q)
  let r := 100 * q - f
  if r > 1 / 2 then f + 1
  else if r < 1 / 2 then f
  else if f % 2 = 0 then f else f + 1

/-- Two-digit zero-padded fraction part. -/
def pad2 (k : Nat) : String :=
  if k < 10 then "0" ++ toString k else toString k

/-- Python's `f"{q:.2f}"`. -/
def format2f (q : ℚ) : String :=
  let n := round2 q
  (if n < 0 then "-" else "") ++ toString (n.natAbs / 100) ++ "." ++ pad2 (n.natAbs % 100)

/-- The banner `"=" * 50`. -/
def bannerLine : String := String.mk (List.replicate 50 '=')

/-- A host-profile line `f"{key}: {value}\n"` without its newline. -/
def kvLine (kv : String × String) : String :=
  kv.1 ++ ": " ++ kv.2

/-- A result line `f"{test} ({params}): {result:.2f} sec\n"` without its
newline, for the cpu/memory/storage suites whose results are floats. -/
def resultLine (r : String × ℚ × String) : String :=
  r.1 ++ " (" ++ r.2.2 ++ "): " ++ format2f r.2.1 ++ " sec"

/-- The storage suite's result line: storage results are
`(Option float, str)` pairs (`benchmark_sequential_read` returns
`(None, "File not found")` when the test file is absent), and
`log_results` formats the first component with `:.2f` unconditionally —
formatting `None` this way raises a `TypeError`. -/
def storageResultLine (r : String × Option ℚ × String) : Except PyErr String :=
  match r.2.1 with
  | some q => Except.ok (r.1 ++ " (" ++ r.2.2 ++ "): " ++ format2f q ++ " sec")
  | none => Except.error PyErr.typeError

/-- The network suite's result line: network `log_results` writes
`f"… {result:.2f} sec\n"` only `if isinstance(result, (int, float))` and
`f"… {result}\n"` otherwise (`result` is then `None`). -/
def networkResultLine (r : String × Option ℚ × String) : String :=
  match r.2.1 with
  | some q => r.1 ++ " (" ++ r.2.2 ++ "): " ++ format2f q ++ " sec"
  | none => r.1 ++ " (" ++ r.2.2 ++ "): None"

/-- The sequence of `log.write` arguments of cpu_benchmark.py's
`log_results`, in order. -/
def cpuLogWrites (info : List (String × String)) (results : List (String × ℚ × String)) :
    List String :=
  [bannerLine ++ "\n", "CPU Benchmark Run \n", bannerLine ++ "\n"]
    ++ info.map (fun kv => kvLine kv ++ "\n")
    ++ ["\nBenchmark Results:\n"]
    ++ results.map (fun r => resultLine r ++ "\n")
    ++ ["\n\n"]

/-- The sequence of `log.write` arguments of memory_benchmark.py's
`log_results`, in order. -/
def memoryLogWrites (info : List (String × String)) (results : List (String × ℚ × String)) :
    List String :=
  [bannerLine ++ "\n", "Memory Benchmark Run \n", bannerLine ++ "\n"]
    ++ info.map (fun kv => kvLine kv ++ "\n")
    ++ ["\nMemory Benchmark Results:\n"]
    ++ results.map (fun r => resultLine r ++ "\n")
    ++ ["\n\n"]

/-- `with open(LOG_FILE, "a") as log:` followed by a sequence of
`log.write(s)` calls: start from the existing contents (empty when the
file is absent, which creates it) and append each chunk in order. -/
def appendRun (file : Option String) (writes : List String) : Option String :=
  some (writes.foldl (fun c s => c ++ s) (file.getD ""))

/-- cpu_benchmark.py's `log_results(system_info, results)` acting on the
log file. -/
def log_results_cpu (file : Option String) (info : List (String × String))
    (results : List (String × ℚ × String)) : Option String :=
  appendRun file (cpuLogWrites info results)

/-- memory_benchmark.py's `log_results(system_info, results)` acting on
the log file. -/
def log_results_memory (file : Option String) (info : List (String × String))
    (results : List (String × ℚ × String)) : Option String :=
  appendRun file (memoryLogWrites info results)

/-- Concatenation of a list of strings (the bytes a write sequence adds). -/
def strConcat (l : List String) : String :=
  l.foldr (fun s acc => s ++ acc) ""

theorem strConcat_cons (s : String) (l : List String) :
    strConcat (s :: l) = s ++ strConcat l := rfl

theorem strConcat_append (xs ys : List String) :
    strConcat (xs ++ ys) = strConcat xs ++ strConcat ys := by
  induction xs with
  | nil =>
    show strConcat ys = "" ++ strConcat ys
    rw [String.empty_append]
  | cons x t ih =>
    rw [List.cons_append, strConcat_cons, strConcat_cons, ih, String.append_assoc]

theorem foldl_append_eq (ws : List String) (init : String) :
    ws.foldl (fun c s => c ++ s) init = init ++ strConcat ws := by
  induction ws generalizing init with
  | nil =>
    show init = init ++ ""
    rw [String.append_empty]
  | cons w t ih =>
    rw [List.foldl_cons, ih, strConcat_cons, String.append_assoc]

theorem appendRun_eq (file : Option String) (writes : List String) :
    appendRun file writes = some (file.getD "" ++ strConcat writes) := by
  unfold appendRun
  rw [foldl_append_eq]

/-!
## Host profiler model (gpu_benchmark.py `get_system_info`)

gpu_benchmark.py begins with `import pyopencl as cl`: its module globals
bind the name `cl`, never `pyopencl`.  `get_system_info` nevertheless
evaluates `pyopencl.get_platforms()` inside its dict literal, so that
name lookup is performed against the module globals when the dict value
is evaluated.
-/

/-- The top-level names bound by gpu_benchmark.py's import statements and
assignments (`import time`, `import numpy as np`, `import pyopencl as cl`,
`import platform`, `import psutil`, `import sys`, `LOG_FILE = …`). -/
def gpuModuleGlobals : List String :=
  ["time", "np", "cl", "platform", "psutil", "sys", "LOG_FILE"]

/-- Python name resolution against gpu_benchmark.py's module globals:
an unbound name raises `NameError`. -/
def gpuLookupGlobal {α : Type} (x : String) (v : α) : Except PyErr α :=
  if x ∈ gpuModuleGlobals then Except.ok v else Except.error PyErr.nameError

/-- The host facts available to gpu_benchmark.py's profiler. -/
structure GpuEnv : Type where
  processorName : String
  machine : String
  cores : Nat
  physicalCores : Nat
  totalMemGB : ℚ
  pythonVersion : String
  clPlatforms : List String

/-- gpu_benchmark.py's `get_system_info`: the dict literal's values are
evaluated in order, ending with
`"Available" if pyopencl.get_platforms() else "Not Available"`, whose
`pyopencl` name lookup happens first. -/
def gpu_get_system_info (env : GpuEnv) : Except PyErr (List (String × String)) := do
  let platforms ← gpuLookupGlobal "pyopencl" env.clPlatforms
  Except.ok
    [("CPU", env.processorName),
     ("Architecture", env.machine),
     ("Cores", toString env.cores),
     ("Physical Cores", toString env.physicalCores),
     ("Total Memory (GB)", toString env.totalMemGB),
     ("Python Version", env.pythonVersion),
     ("OpenCL Version", if platforms.isEmpty then "Not Available" else "Available")]

/-!
## Network entry point model (network_benchmark.py `__main__`)
-/

/-- `get_default_interface()`: `eth0` if present among the host's
interfaces, else `wlan0` if present, else `None`. -/
def get_default_interface (ifaces : List String) : Option String :=
  if "eth0" ∈ ifaces then some "eth0"
  else if "wlan0" ∈ ifaces then some "wlan0"
  else none

/-- Observable outcome of running `python network_benchmark.py`:
what was printed, the process exit code, and whether
`run_network_benchmarks` was invoked. -/
structure MainOutcome : Type where
  messages : List String
  exitCode : Nat
  ranBenchmarks : Bool
deriving DecidableEq, Repr

/-- network_benchmark.py's `__main__` block: `args.interface` is the
`--interface` value if given, else `get_default_interface()`; if it is
`None` the script prints an error and falls off the end of the module
(exit status 0 — there is no `sys.exit` call in the file); otherwise it
runs the benchmarks. -/
def network_main (ifaces : List String) (cliInterface : Option String) : MainOutcome :=
  let argsInterface :=
    match cliInterface with
    | some s => some s
    | none => get_default_interface ifaces
  match argsInterface with
  | none =>
    { messages := ["No valid network interface found. Please specify manually."]
      exitCode := 0
      ranBenchmarks := false }
  | some i =>
    { messages := ["Running Network Benchmarks on " ++ i ++ "...\n"]
      exitCode := 0
      ranBenchmarks := true }

/-- storage_benchmark.py's `benchmark_sequential_read`: returns
`(None, "File not found")` when the test file is absent, otherwise reads
the file between two wall-clock reads and returns the elapsed pair. -/
def benchmark_sequential_read (fileExists : Bool) (t0 t1 : ℚ) : UnitRes :=
  if fileExists then (some (t1 - t0), "file=test_benchmark.dat")
  else (none, "File not found")

/-!
## Claim theorems
-/

/-- A concrete suite in which the second unit body raises: the brute-force
prime benchmark returns normally, the SHA256 unit raises (e.g. a
`MemoryError`), and a third unit is registered after it. -/
def c1Units : List (String × Except PyErr UnitRes) :=
  [("Prime Number Calculation (Brute-Force)", Except.ok (some 1, "n=50000")),
   ("SHA256 Hashing", Except.error PyErr.memoryError),
   ("Sorting Algorithm", Except.ok (some 2, "n=1000000"))]

/-- C1 counterexample: with the suite `c1Units`, whose second unit body
raises, the runner does not record a `Failed` outcome and proceed — the
exception propagates out of the dict literal, no report is produced at
all, and the third unit never contributes an outcome. -/
theorem c1_counterexample :
    runSuite c1Units = Except.error PyErr.memoryError ∧
    (runSuite c1Units).toOption = none :=
  ⟨rfl, rfl⟩

/-- C1 (amended): a unit body that raises is not caught by the runner:
for any suite consisting of normally-returning units followed by a unit
whose body raises, the whole suite execution aborts with that error and
yields no report (so no outcome is recorded for the raising unit or any
later unit). -/
theorem c1_theorem (pre : List (String × UnitRes)) (nm : String) (e : PyErr)
    (post : List (String × Except PyErr UnitRes)) :
    runSuite (pre.map (fun u => (u.1, Except.ok u.2)) ++ (nm, Except.error e) :: post)
      = Except.error e := by
  induction pre with
  | nil => rfl
  | cons u t ih =>
    simp only [List.map_cons, List.cons_append, runSuite, List.append_eq, ih]

/-- A two-unit suite whose second unit body raises. -/
def c2Units : List (String × Except PyErr UnitRes) :=
  [("Memory Read/Write Speed", Except.ok (some 1, "size=500MB")),
   ("Memory Bandwidth Test", Except.error PyErr.memoryError)]

/-- C2 counterexample: with the registry `c2Units` (two registered
units), execution does not yield a report with two outcomes — it yields
no report, and the outcome already recorded for the first unit is
discarded by the second unit's failure. -/
theorem c2_counterexample :
    (runSuite c2Units).toOption.map List.length ≠ some c2Units.length := by
  intro h
  exact Option.noConfusion h

/-- C2 (amended): when every registered unit's body returns normally,
the suite execution yields a report with exactly one outcome per
registered unit, in registration order, each outcome exactly as the unit
produced it; when some unit raises, the execution yields no report at
all (see the C1 theorems), rather than a shorter or reordered one. -/
theorem c2_theorem (units : List (String × UnitRes)) :
    runSuite (units.map (fun u => (u.1, Except.ok u.2))) = Except.ok units := by
  induction units with
  | nil => rfl
  | cons u t ih =>
    simp only [List.map_cons, runSuite, ih]

/-- C3 counterexample: inserting the same benchmark name twice into the
suite dict raises nothing (insertion is total) and does not leave the
registry in its prior state: the second registration silently replaces
the first unit's value. -/
theorem c3_counterexample :
    dictInsert (dictInsert ([] : List (String × Nat)) "Prime Number Calculation" 1)
        "Prime Number Calculation" 2
      = [("Prime Number Calculation", 2)] ∧
    dictInsert (dictInsert ([] : List (String × Nat)) "Prime Number Calculation" 1)
        "Prime Number Calculation" 2
      ≠ dictInsert ([] : List (String × Nat)) "Prime Number Calculation" 1 := by
  refine ⟨rfl, ?_⟩
  decide

/-- C3 (amended): registering a unit under a name already present never
fails and is not transactional — it replaces the stored unit in place
(Python dict last-wins semantics).  The key list is unchanged when the
name was present and gains exactly the new name at the end otherwise, so
a registry still never holds two units under one name. -/
theorem c3_theorem {V : Type} (d : List (String × V)) (k : String) (v : V) :
    (dictInsert d k v).map Prod.fst =
      (if k ∈ d.map Prod.fst then d.map Prod.fst else d.map Prod.fst ++ [k]) ∧
    dictFind (dictInsert d k v) k = some v := by
  induction d with
  | nil =>
    refine ⟨by simp [dictInsert], ?_⟩
    simp [dictInsert, dictFind]
  | cons kv t ih =>
    obtain ⟨k', v'⟩ := kv
    by_cases hk : k' = k
    · subst hk
      refine ⟨?_, ?_⟩
      · simp [dictInsert]
      · simp [dictInsert, dictFind]
    · refine ⟨?_, ?_⟩
      · simp only [dictInsert, if_neg hk, List.map_cons, ih.1, List.mem_cons]
        have hne : ¬ k = k' := fun he => hk he.symm
        by_cases hmem : k ∈ t.map Prod.fst
        · simp [hmem, hne]
        · simp [hmem, hne]
      · simp only [dictInsert, if_neg hk, dictFind, ih.2]

/-- C4 counterexample: `benchmark_prime_numbers` takes its two timestamps
from `time.time()` (wall clock); if the wall clock is adjusted backwards
between the two reads (start read 1, end read 0) the recorded duration
is −1 — negative, so it is not clamped to ≥ 0. -/
theorem c4_counterexample :
    (benchmark_prime_numbers 1 0 5).1 = -1 ∧
    ¬ (0 ≤ (benchmark_prime_numbers 1 0 5).1) := by
  constructor
  · show (0 : ℚ) - 1 = -1
    norm_num
  · show ¬ ((0 : ℚ) ≤ 0 - 1)
    norm_num

/-- C4 (amended): the recorded duration is exactly `end − start` of the
two `time.time()` wall-clock reads, with no clamping: it is negative
precisely when the second read is smaller than the first (a backwards
wall-clock adjustment), and non-negative only when the clock did not go
backwards. -/
theorem c4_theorem (t0 t1 : ℚ) (n : Nat) :
    (benchmark_prime_numbers t0 t1 n).1 = t1 - t0 ∧
    ((benchmark_prime_numbers t0 t1 n).1 < 0 ↔ t1 < t0) := by
  refine ⟨rfl, ?_⟩
  show t1 - t0 < 0 ↔ t1 < t0
  constructor <;> intro h <;> linarith

/-- C5: at the failing input — the storage suite with the test file
absent, so `benchmark_sequential_read` returns `(None, "File not
found")` — the storage `log_results` line formatter does not print the
message verbatim: applying `:.2f` to `None` raises a `TypeError`.  The
network `log_results`, by contrast, prints a failed outcome's line with
the message verbatim and `None` instead of a numeric duration. -/
theorem c5_theorem :
    storageResultLine ("Sequential Read Speed", benchmark_sequential_read false 0 0)
      = Except.error PyErr.typeError ∧
    networkResultLine ("Download Speed Test", (none, "Error: boom"))
      = "Download Speed Test (Error: boom): None" :=
  ⟨rfl, rfl⟩

/-- C6: cpu `log_results` is a pure append.  Calling it twice on the log
file leaves the file containing the prior bytes unchanged, immediately
followed by run A's block, immediately followed by run B's block — no
truncation or rewriting of earlier bytes (an absent file behaves as
empty prior contents and is created). -/
theorem c6_theorem (file : Option String)
    (infoA : List (String × String)) (resA : List (String × ℚ × String))
    (infoB : List (String × String)) (resB : List (String × ℚ × String)) :
    log_results_cpu (log_results_cpu file infoA resA) infoB resB
      = some (file.getD "" ++ strConcat (cpuLogWrites infoA resA)
          ++ strConcat (cpuLogWrites infoB resB)) := by
  unfold log_results_cpu
  rw [appendRun_eq, appendRun_eq]
  rw [Option.getD_some, String.append_assoc]

/-- C7: gpu_benchmark.py's `get_system_info` never returns a profile:
for every host environment (OpenCL present or not), evaluating the
`"OpenCL Version"` entry looks up the unbound name `pyopencl` (the
module imported it as `cl`) and raises `NameError`, aborting the whole
profile collection instead of recording a sentinel value. -/
theorem c7_theorem (env : GpuEnv) :
    gpu_get_system_info env = Except.error PyErr.nameError := rfl

/-- C8 counterexample: invoked without `--interface` on a host with no
`eth0`/`wlan0` (here: no interfaces at all), the script prints the
error and runs no benchmarks, but its exit code is 0 — not non-zero as
claimed. -/
theorem c8_counterexample :
    (network_main [] none).exitCode = 0 ∧
    (network_main [] none).ranBenchmarks = false ∧
    (network_main [] none).messages
      = ["No valid network interface found. Please specify manually."] :=
  ⟨rfl, rfl, rfl⟩

/-- C8 (amended): without `--interface` and with no usable interface
(`eth0` and `wlan0` both absent), the program reports a user-visible
error and runs no benchmarks, but exits with status 0 (the script has no
`sys.exit` call; the `__main__` block just falls off the end). -/
theorem c8_theorem (ifaces : List String)
    (h1 : "eth0" ∉ ifaces) (h2 : "wlan0" ∉ ifaces) :
    network_main ifaces none =
      { messages := ["No valid network interface found. Please specify manually."]
        exitCode := 0
        ranBenchmarks := false } := by
  unfold network_main get_default_interface
  rw [if_neg h1, if_neg h2]

/-- C8 witness: a host whose only interface is `lo` satisfies the
hypotheses, and the theorem applies. -/
theorem c8_witness :
    "eth0" ∉ (["lo"] : List String) ∧ "wlan0" ∉ (["lo"] : List String) ∧
    network_main ["lo"] none =
      { messages := ["No valid network interface found. Please specify manually."]
        exitCode := 0
        ranBenchmarks := false } :=
  ⟨by decide, by decide, c8_theorem ["lo"] (by decide) (by decide)⟩

/-- C10: for every n, the prime list produced by the brute-force
trial-division loop of `benchmark_prime_numbers` equals the prime list
produced by the Sieve of Eratosthenes loop of
`benchmark_sieve_of_eratosthenes` over the same range `[2, n)` — the two
workload bodies enumerate exactly the same primes (in particular for
every n ≥ 2). -/
theorem c10_theorem (n : Nat) : primesBruteForce n = primesSieve n := by
  rw [primesBruteForce_eq_filter_prime, primesSieve_eq_filter_prime]

/-- The memory run block as a list of lines (each rendered with a
trailing newline): banner, title, banner, one `key: value` line per
host-profile entry, a blank line, the results label, one
`name (params): value` line per outcome, and two trailing blank lines. -/
def memoryBlockLines (info : List (String × String))
    (results : List (String × ℚ × String)) : List String :=
  [bannerLine, "Memory Benchmark Run ", bannerLine]
    ++ info.map kvLine
    ++ [""]
    ++ ["Memory Benchmark Results:"]
    ++ results.map resultLine
    ++ ["", ""]

theorem memoryLogWrites_eq_lines (info : List (String × String))
    (results : List (String × ℚ × String)) :
    strConcat (memoryLogWrites info results)
      = strConcat ((memoryBlockLines info results).map (fun l => l ++ "\n")) := by
  unfold memoryLogWrites memoryBlockLines
  simp only [List.map_append, List.map_cons, List.map_nil, List.map_map, Function.comp_def]
  simp only [strConcat_append, strConcat_cons]
  have h1 : ("Memory Benchmark Run \n" : String) = "Memory Benchmark Run " ++ "\n" := rfl
  have h2 : ("\nMemory Benchmark Results:\n" : String)
      = ("" ++ "\n") ++ ("Memory Benchmark Results:" ++ "\n") := rfl
  have h3 : ("\n\n" : String) = ("" ++ "\n") ++ ("" ++ "\n") := rfl
  rw [h1, h2, h3]
  simp [strConcat, String.append_assoc, String.append_empty, String.empty_append]

/-- C9: every memory run appended to the log has exactly the claimed
block structure — a banner line, the title line, a banner line, one
`key: value` line per host-profile entry, a blank line, the
`Memory Benchmark Results:` label line, one `name (params): value` line
per outcome, and two trailing blank lines — appended after the prior
contents, with an absent file treated as empty (created). -/
theorem c9_theorem (file : Option String) (info : List (String × String))
    (results : List (String × ℚ × String)) :
    log_results_memory file info results
      = some (file.getD ""
          ++ strConcat ((memoryBlockLines info results).map (fun l => l ++ "\n"))) := by
  unfold log_results_memory
  rw [appendRun_eq, memoryLogWrites_eq_lines]
